import Mathlib

/-
Verification of the two scripts in this repository.

`check_if_resolves.py` reads a list of domains from the command line and,
for each domain in order, calls the platform resolver
(`socket.gethostbyname`). On success it prints the returned address; on
`socket.gaierror` it prints a failure line and continues with the next
domain; any other exception is uncaught and aborts the remaining loop
iterations. We embed the script as a pure function over an oracle for the
resolution facility, and record per domain the abstract ResolutionResult
of the specification (from which each printed line is formatted), the
sequence of queries submitted to the facility, and the uncaught exception
if one occurred.

`DNSDumpster.py` forwards one domain to a third-party API and prints the
raw result; its `fetch_results` and `main` are embedded over an oracle
for the API call and one for Python's textual rendering of the result.
-/

namespace DnsScripts

/-- Answer of the name-resolution facility (`socket.gethostbyname`) for one
submitted domain. A successful lookup yields one or more addresses, of
which `gethostbyname` reports the first; an unresolvable name raises
`socket.gaierror`; any other exception kind is outside the facility's
normal contract and is carried with its message. -/
inductive ResolverAnswer where
  | addrs (first : String) (rest : List String)
  | gaierror
  | otherError (msg : String)
deriving DecidableEq, Repr

/-- Status field of a ResolutionResult. -/
inductive Status where
  | Resolved
  | Failed
deriving DecidableEq, Repr

/-- Error taxonomy of the specification. -/
inductive ErrorKind where
  | NameResolutionFailure
  | Timeout
  | InvalidInput
deriving DecidableEq, Repr

/-- Output record for one DomainQuery: the original domain string, the
status, the address (present exactly on success) and the error kind
(present exactly on failure). -/
structure ResolutionResult where
  domain : String
  status : Status
  address : Option String
  errorKind : Option ErrorKind
deriving DecidableEq, Repr

/-- Result emitted by the `try` branch: `ip = socket.gethostbyname(domain)`
succeeded and the first returned address is reported. -/
def resolvedResult (d ip : String) : ResolutionResult :=
  ⟨d, Status.Resolved, some ip, none⟩

/-- Result emitted by the `except socket.gaierror` branch. -/
def failedResult (d : String) : ResolutionResult :=
  ⟨d, Status.Failed, none, some ErrorKind.NameResolutionFailure⟩

/-- One run of the script: the ResolutionResults emitted in order, the
domains submitted to the resolution facility in order, and the uncaught
exception, if any, that aborted the loop. -/
structure ProbeRun where
  results : List ResolutionResult
  queries : List String
  exc : Option String
deriving DecidableEq, Repr

/-- The module-level `for domain in domains` loop of
`check_if_resolves.py`: each domain is submitted as-is to the facility;
an `addrs` answer emits a Resolved result with the first address, a
`gaierror` answer is caught and emits a Failed result, and any other
exception is uncaught, so no further domain is processed. -/
def runProbe (resolver : String → ResolverAnswer) : List String → ProbeRun
  | [] => ⟨[], [], none⟩
  | d :: ds =>
    match resolver d with
    | ResolverAnswer.addrs first _ =>
        ⟨resolvedResult d first :: (runProbe resolver ds).results,
         d :: (runProbe resolver ds).queries,
         (runProbe resolver ds).exc⟩
    | ResolverAnswer.gaierror =>
        ⟨failedResult d :: (runProbe resolver ds).results,
         d :: (runProbe resolver ds).queries,
         (runProbe resolver ds).exc⟩
    | ResolverAnswer.otherError e => ⟨[], [d], some e⟩

/-- The line printed for one ResolutionResult, in the grammar of the
source script. -/
def formatResult (r : ResolutionResult) : String :=
  match r.status with
  | Status.Resolved => r.domain ++ " resolves to " ++ r.address.getD ""
  | Status.Failed => r.domain ++ " does not resolve"

/-- The lines printed by one run of the script, in order. -/
def outputLines (resolver : String → ResolverAnswer) (domains : List String) : List String :=
  (runProbe resolver domains).results.map formatResult

/-- Whether a facility answer is an exception other than
`socket.gaierror`, the only exception kind the script catches. -/
def isOtherError : ResolverAnswer → Bool
  | ResolverAnswer.otherError _ => true
  | _ => false

/-- Proof helper: the ResolutionResult produced for one domain whose
facility answer is within the facility's contract (addresses or
gaierror); the `otherError` branch is never reached under that
hypothesis and is given an arbitrary value. -/
def stepResult (resolver : String → ResolverAnswer) (d : String) : ResolutionResult :=
  match resolver d with
  | ResolverAnswer.addrs first _ => resolvedResult d first
  | ResolverAnswer.gaierror => failedResult d
  | ResolverAnswer.otherError _ => failedResult d

/-- `fetch_results` of `DNSDumpster.py`: `results =
DNSDumpsterAPI().search(domain); return results`. The API call is an
oracle `search`; its result type is opaque. -/
def fetch_results {α : Type} (search : String → α) (domain : String) : α :=
  search domain

/-- `main` of `DNSDumpster.py` after argument parsing:
`print(fetch_results(args.domain))`. `pythonStr` is Python's textual
rendering applied by `print`. -/
def dnsdumpster_main {α : Type} (search : String → α) (pythonStr : α → String)
    (domain : String) : String :=
  pythonStr (fetch_results search domain)

/-- A concrete resolution facility used to instantiate theorems:
`example.com` resolves, `boom.example` raises a non-gaierror exception,
everything else raises `socket.gaierror`. -/
def exampleResolver : String → ResolverAnswer := fun d =>
  if d = "example.com" then ResolverAnswer.addrs "93.184.216.34" []
  else if d = "boom.example" then ResolverAnswer.otherError "encoding error"
  else ResolverAnswer.gaierror

/-- A second concrete facility that agrees with `exampleResolver` on
`example.com` and differs elsewhere. -/
def otherResolver : String → ResolverAnswer := fun d =>
  if d = "example.com" then ResolverAnswer.addrs "93.184.216.34" []
  else ResolverAnswer.otherError "different elsewhere"

/-- When every facility answer on the input list is within the facility's
contract (no uncaught exception kind), the run is fully characterized:
one result per domain in input order, one query per domain in input
order, and no propagated exception. -/
theorem runProbe_benign (resolver : String → ResolverAnswer) :
    ∀ ds : List String, (∀ d ∈ ds, isOtherError (resolver d) = false) →
      runProbe resolver ds = ⟨ds.map (stepResult resolver), ds, none⟩ := by
  intro ds
  induction ds with
  | nil => intro _; rfl
  | cons d ds ih =>
    intro h
    have hd : isOtherError (resolver d) = false := h d (List.mem_cons_self d ds)
    have hds : ∀ x ∈ ds, isOtherError (resolver x) = false :=
      fun x hx => h x (List.mem_cons_of_mem d hx)
    have hih := ih hds
    cases hr : resolver d with
    | addrs first rest =>
        simp [runProbe, hr, hih, stepResult]
    | gaierror =>
        simp [runProbe, hr, hih, stepResult]
    | otherError e =>
        rw [hr] at hd
        simp [isOtherError] at hd

/-- Claim C1: for every non-empty input sequence whose facility answers
stay within the facility's contract, the probe emits exactly one
ResolutionResult per input DomainQuery — the result count equals the
input count, and the results' domains are exactly the inputs in order,
so there are no drops and no duplicates beyond duplicate inputs. -/
theorem probe_one_result_per_domain (resolver : String → ResolverAnswer)
    (ds : List String) (_hne : ds ≠ [])
    (h : ∀ d ∈ ds, isOtherError (resolver d) = false) :
    (runProbe resolver ds).results.length = ds.length ∧
    (runProbe resolver ds).results.map (fun r => r.domain) = ds := by
  have hrun := runProbe_benign resolver ds h
  rw [hrun]
  constructor
  · simp
  · simp only [List.map_map]
    have : ∀ d : String, ((fun r => r.domain) ∘ stepResult resolver) d = d := by
      intro d
      cases hr : resolver d <;>
        simp [stepResult, hr, resolvedResult, failedResult, Function.comp]
    calc ds.map ((fun r => r.domain) ∘ stepResult resolver)
        = ds.map id := List.map_congr_left (fun d _ => this d)
      _ = ds := List.map_id ds

theorem probe_one_result_per_domain_witness :
    ((["example.com", "nope.invalid"] : List String) ≠ []) ∧
    (∀ d ∈ (["example.com", "nope.invalid"] : List String),
      isOtherError (exampleResolver d) = false) ∧
    ((runProbe exampleResolver ["example.com", "nope.invalid"]).results.length = 2 ∧
     (runProbe exampleResolver ["example.com", "nope.invalid"]).results.map
       (fun r => r.domain) = ["example.com", "nope.invalid"]) :=
  ⟨by decide, by decide,
   probe_one_result_per_domain exampleResolver ["example.com", "nope.invalid"]
     (by decide) (by decide)⟩

/-- Claim C2: when every facility answer on the list is within the
facility's contract, a `gaierror` on one domain never aborts the batch:
no exception propagates, every input still gets a result, and the
failing domain's result is Failed with errorKind NameResolutionFailure. -/
theorem failure_recorded_not_propagated (resolver : String → ResolverAnswer)
    (ds : List String) (h : ∀ d ∈ ds, isOtherError (resolver d) = false) :
    (runProbe resolver ds).exc = none ∧
    (runProbe resolver ds).results.length = ds.length ∧
    ∀ i (hi : i < ds.length), resolver ds[i] = ResolverAnswer.gaierror →
      (runProbe resolver ds).results[i]? = some (failedResult ds[i]) := by
  have hrun := runProbe_benign resolver ds h
  rw [hrun]
  refine ⟨rfl, by simp, ?_⟩
  intro i hi hres
  rw [List.getElem?_map, List.getElem?_eq_getElem hi]
  simp [stepResult, hres]

theorem failure_recorded_not_propagated_witness :
    (∀ d ∈ (["nope.invalid"] : List String),
      isOtherError (exampleResolver d) = false) ∧
    (runProbe exampleResolver ["nope.invalid"]).exc = none ∧
    (runProbe exampleResolver ["nope.invalid"]).results[0]? =
      some (failedResult "nope.invalid") :=
  ⟨by decide,
   (failure_recorded_not_propagated exampleResolver ["nope.invalid"] (by decide)).1,
   (failure_recorded_not_propagated exampleResolver ["nope.invalid"] (by decide)).2.2
     0 (by decide) (by decide)⟩

/-- Claim C3: when the facility answers stay within contract and the
domain at index i successfully resolves to the address list
`first :: rest`, the emitted ResolutionResult at index i is Resolved,
carries exactly the single first address, and echoes the input domain
string verbatim. -/
theorem resolved_carries_first_address (resolver : String → ResolverAnswer)
    (ds : List String) (h : ∀ d ∈ ds, isOtherError (resolver d) = false)
    (i : Nat) (hi : i < ds.length) (first : String) (rest : List String)
    (hres : resolver ds[i] = ResolverAnswer.addrs first rest) :
    (runProbe resolver ds).results[i]? = some (resolvedResult ds[i] first) := by
  have hrun := runProbe_benign resolver ds h
  rw [hrun]
  rw [List.getElem?_map, List.getElem?_eq_getElem hi]
  simp [stepResult, hres]

theorem resolved_carries_first_address_witness :
    (∀ d ∈ (["example.com"] : List String),
      isOtherError (exampleResolver d) = false) ∧
    (0 < (["example.com"] : List String).length) ∧
    (exampleResolver "example.com" = ResolverAnswer.addrs "93.184.216.34" []) ∧
    (runProbe exampleResolver ["example.com"]).results[0]? =
      some (resolvedResult "example.com" "93.184.216.34") :=
  ⟨by decide, by decide, by decide,
   resolved_carries_first_address exampleResolver ["example.com"] (by decide)
     0 (by decide) "93.184.216.34" [] (by decide)⟩

/-- Claim C4: with the source's sequential behavior and facility answers
within contract, results appear strictly in input order — the emitted
domains equal the input sequence, and for every pair of indices i < j
the i-th emitted result is for input i and the j-th for input j. -/
theorem results_in_input_order (resolver : String → ResolverAnswer)
    (ds : List String) (h : ∀ d ∈ ds, isOtherError (resolver d) = false) :
    (runProbe resolver ds).results.map (fun r => r.domain) = ds ∧
    ∀ i j, i < j → j < ds.length →
      ((runProbe resolver ds).results.map (fun r => r.domain))[i]? = ds[i]? ∧
      ((runProbe resolver ds).results.map (fun r => r.domain))[j]? = ds[j]? := by
  have hmap : (runProbe resolver ds).results.map (fun r => r.domain) = ds := by
    have hrun := runProbe_benign resolver ds h
    rw [hrun]
    simp only [List.map_map]
    have : ∀ d : String, ((fun r => r.domain) ∘ stepResult resolver) d = d := by
      intro d
      cases hr : resolver d <;>
        simp [stepResult, hr, resolvedResult, failedResult, Function.comp]
    calc ds.map ((fun r => r.domain) ∘ stepResult resolver)
        = ds.map id := List.map_congr_left (fun d _ => this d)
      _ = ds := List.map_id ds
  exact ⟨hmap, fun i j _ _ => by rw [hmap]; exact ⟨rfl, rfl⟩⟩

theorem results_in_input_order_witness :
    (∀ d ∈ (["example.com", "nope.invalid"] : List String),
      isOtherError (exampleResolver d) = false) ∧
    ((runProbe exampleResolver ["example.com", "nope.invalid"]).results.map
       (fun r => r.domain) = ["example.com", "nope.invalid"]) ∧
    ((0 : Nat) < 1) ∧ ((1 : Nat) < 2) ∧
    ((runProbe exampleResolver ["example.com", "nope.invalid"]).results.map
       (fun r => r.domain))[0]? = some "example.com" ∧
    ((runProbe exampleResolver ["example.com", "nope.invalid"]).results.map
       (fun r => r.domain))[1]? = some "nope.invalid" :=
  ⟨by decide,
   (results_in_input_order exampleResolver ["example.com", "nope.invalid"]
      (by decide)).1,
   by decide, by decide,
   ((results_in_input_order exampleResolver ["example.com", "nope.invalid"]
      (by decide)).2 0 1 (by decide) (by decide)).1,
   ((results_in_input_order exampleResolver ["example.com", "nope.invalid"]
      (by decide)).2 0 1 (by decide) (by decide)).2⟩

/-- Claim C5: the empty input sequence produces the empty result
sequence, zero invocations of the resolution facility, and no error. -/
theorem empty_input_empty_run (resolver : String → ResolverAnswer) :
    runProbe resolver [] = ⟨[], [], none⟩ ∧
    (runProbe resolver []).queries.length = 0 := ⟨rfl, rfl⟩

/-- Claim C6: when the facility answers stay within contract, each input
entry triggers exactly one facility invocation (no retries), the
invocations occur in input order, and duplicate entries are resolved
independently — the number of invocations for a domain equals its number
of occurrences in the input, with no deduplication or caching. -/
theorem one_invocation_per_entry (resolver : String → ResolverAnswer)
    (ds : List String) (h : ∀ d ∈ ds, isOtherError (resolver d) = false) :
    (runProbe resolver ds).queries = ds ∧
    ∀ d : String, (runProbe resolver ds).queries.count d = ds.count d := by
  have hrun := runProbe_benign resolver ds h
  rw [hrun]
  exact ⟨rfl, fun _ => rfl⟩

theorem one_invocation_per_entry_witness :
    (∀ d ∈ (["dup.example", "dup.example"] : List String),
      isOtherError (exampleResolver d) = false) ∧
    (runProbe exampleResolver ["dup.example", "dup.example"]).queries =
      ["dup.example", "dup.example"] ∧
    (runProbe exampleResolver ["dup.example", "dup.example"]).queries.count
      "dup.example" =
      (["dup.example", "dup.example"] : List String).count "dup.example" :=
  ⟨by decide,
   (one_invocation_per_entry exampleResolver ["dup.example", "dup.example"]
      (by decide)).1,
   (one_invocation_per_entry exampleResolver ["dup.example", "dup.example"]
      (by decide)).2 "dup.example"⟩

/-- Claim C7: the probe performs no pre-validation and no special-casing
of empty or malformed domain strings: every submitted query is the input
string verbatim at its position (an initial segment of the input), every
emitted result's errorKind is never InvalidInput, and every Failed
result carries NameResolutionFailure. -/
theorem no_prevalidation (resolver : String → ResolverAnswer)
    (ds : List String) (r : ResolutionResult)
    (hr : r ∈ (runProbe resolver ds).results) :
    (runProbe resolver ds).queries =
      ds.take (runProbe resolver ds).queries.length ∧
    r.errorKind ≠ some ErrorKind.InvalidInput ∧
    (r.status = Status.Failed → r.errorKind = some ErrorKind.NameResolutionFailure) := by
  refine ⟨?_, ?_⟩
  · clear hr
    induction ds with
    | nil => rfl
    | cons d ds ih =>
      cases hres : resolver d with
      | addrs first rest => simp [runProbe, hres]; exact ih
      | gaierror => simp [runProbe, hres]; exact ih
      | otherError e => simp [runProbe, hres]
  · induction ds with
    | nil => cases hr
    | cons d ds ih =>
      cases hres : resolver d with
      | addrs first rest =>
        rw [runProbe, hres] at hr
        rcases List.mem_cons.mp hr with heq | hmem
        · subst heq
          exact ⟨by simp [resolvedResult], by simp [resolvedResult]⟩
        · exact ih hmem
      | gaierror =>
        rw [runProbe, hres] at hr
        rcases List.mem_cons.mp hr with heq | hmem
        · subst heq
          exact ⟨by simp [failedResult], by simp [failedResult]⟩
        · exact ih hmem
      | otherError e =>
        rw [runProbe, hres] at hr
        cases hr

theorem no_prevalidation_witness :
    (failedResult "" ∈ (runProbe exampleResolver [""]).results) ∧
    ((runProbe exampleResolver [""]).queries =
       ([""] : List String).take (runProbe exampleResolver [""]).queries.length ∧
     (failedResult "").errorKind ≠ some ErrorKind.InvalidInput ∧
     ((failedResult "").status = Status.Failed →
       (failedResult "").errorKind = some ErrorKind.NameResolutionFailure)) :=
  ⟨by decide, no_prevalidation exampleResolver [""] (failedResult "") (by decide)⟩

/-- Claim C8: `fetch_results` returns exactly what the API's search call
returned, with no transformation, and `main` prints that raw result
unchanged (up to Python's textual rendering applied by `print`). -/
theorem fetch_results_is_raw {α : Type} (search : String → α)
    (pythonStr : α → String) (domain : String) :
    fetch_results search domain = search domain ∧
    dnsdumpster_main search pythonStr domain = pythonStr (search domain) :=
  ⟨rfl, rfl⟩

/-- Claim C9: only `socket.gaierror` is caught per domain. If the
facility answers within contract on a leading segment of the input and
then raises any other exception kind on the next domain, that exception
propagates: the run records the exception, only the leading segment got
results, the offending domain was the last facility invocation, and all
remaining domains are never processed, so the accounting is incomplete. -/
theorem uncaught_exception_aborts (resolver : String → ResolverAnswer)
    (pre : List String) (d : String) (post : List String) (e : String)
    (hpre : ∀ x ∈ pre, isOtherError (resolver x) = false)
    (hd : resolver d = ResolverAnswer.otherError e) :
    runProbe resolver (pre ++ d :: post) =
      ⟨pre.map (stepResult resolver), pre ++ [d], some e⟩ ∧
    (runProbe resolver (pre ++ d :: post)).results.length <
      (pre ++ d :: post).length := by
  have hmain : runProbe resolver (pre ++ d :: post) =
      ⟨pre.map (stepResult resolver), pre ++ [d], some e⟩ := by
    induction pre with
    | nil => simp [runProbe, hd]
    | cons x pre ih =>
      have hx : isOtherError (resolver x) = false := hpre x (List.mem_cons_self x pre)
      have hpre2 : ∀ y ∈ pre, isOtherError (resolver y) = false :=
        fun y hy => hpre y (List.mem_cons_of_mem x hy)
      have hih := ih hpre2
      cases hres : resolver x with
      | addrs first rest =>
        simp [runProbe, hres, hih, stepResult]
      | gaierror =>
        simp [runProbe, hres, hih, stepResult]
      | otherError e2 =>
        rw [hres] at hx
        simp [isOtherError] at hx
  refine ⟨hmain, ?_⟩
  rw [hmain]
  simp only [List.length_map, List.length_append, List.length_cons]
  omega

theorem uncaught_exception_aborts_witness :
    (∀ x ∈ (["example.com"] : List String),
      isOtherError (exampleResolver x) = false) ∧
    (exampleResolver "boom.example" = ResolverAnswer.otherError "encoding error") ∧
    (runProbe exampleResolver (["example.com"] ++ "boom.example" :: ["after.example"]) =
      ⟨(["example.com"] : List String).map (stepResult exampleResolver),
       ["example.com"] ++ ["boom.example"], some "encoding error"⟩ ∧
     (runProbe exampleResolver
        (["example.com"] ++ "boom.example" :: ["after.example"])).results.length <
       ((["example.com"] : List String) ++ "boom.example" :: ["after.example"]).length) :=
  ⟨by decide, by decide,
   uncaught_exception_aborts exampleResolver ["example.com"] "boom.example"
     ["after.example"] "encoding error" (by decide) (by decide)⟩

/-- Claim C10: the probe is deterministic with respect to the resolution
facility and reads no other state: two runs on the same input sequence
whose facilities give the same answer for each input domain produce the
same run — same results, same queries, same exception — and the same
printed output. -/
theorem probe_deterministic (r1 r2 : String → ResolverAnswer)
    (ds : List String) (h : ∀ d ∈ ds, r1 d = r2 d) :
    runProbe r1 ds = runProbe r2 ds ∧ outputLines r1 ds = outputLines r2 ds := by
  have hrun : runProbe r1 ds = runProbe r2 ds := by
    induction ds with
    | nil => rfl
    | cons d ds ih =>
      have hd : r1 d = r2 d := h d (List.mem_cons_self d ds)
      have hds : ∀ x ∈ ds, r1 x = r2 x :=
        fun x hx => h x (List.mem_cons_of_mem d hx)
      have hih := ih hds
      cases hres : r2 d with
      | addrs first rest =>
        simp [runProbe, hd, hres, hih]
      | gaierror =>
        simp [runProbe, hd, hres, hih]
      | otherError e =>
        simp [runProbe, hd, hres]
  exact ⟨hrun, by unfold outputLines; rw [hrun]⟩

theorem probe_deterministic_witness :
    (∀ d ∈ (["example.com"] : List String),
      exampleResolver d = otherResolver d) ∧
    (runProbe exampleResolver ["example.com"] =
       runProbe otherResolver ["example.com"] ∧
     outputLines exampleResolver ["example.com"] =
       outputLines otherResolver ["example.com"]) :=
  ⟨by decide,
   probe_deterministic exampleResolver otherResolver ["example.com"] (by decide)⟩

end DnsScripts
